import Mathlib

/-!
Verification development for the meeting-recorder application (src/app.py).

The embedding translates the job-store class `SimpleJobManager` and the
background worker `process_audio_async` into Lean.  Python strings are
modelled as `List Char`, wall-clock readings and the float-valued progress
as `ℚ`, and the external collaborators (the speech operation, the object
store, the summarization API) as oracles supplied in an `Env` record.
Fallible external calls are `Except` values; the worker's `try/except`
blocks become explicit case analysis on those values.  The worker is
modelled as a function from the environment (plus fuel bounding the
polling loop) to the sequence of `update_job_status` calls it issues,
together with counters for the polls and summarization calls it makes.
-/

/-- Phase labels written to `current_step`; each constructor stands for one
of the literal (f-)strings in app.py, with the numeric payloads of the
formatted strings kept as data. -/
inductive StepMsg where
  /-- the initial 'waiting' set by `create_job` (line 46) -/
  | waiting : StepMsg
  /-- '音声認識を開始中...' (line 134) -/
  | startRecog : StepMsg
  /-- '音声認識API呼び出し中...' (line 186) -/
  | callingApi : StepMsg
  /-- '音声認識実行中（最大{mins}分）...' (line 191) -/
  | running (mins : Nat) : StepMsg
  /-- '音声認識処理中... 残り約{rem}分' (line 205) -/
  | polling (rem : ℚ) : StepMsg
  /-- '音声認識結果を取得中...' (line 211) -/
  | fetching : StepMsg
  /-- '議事録生成中...' (line 224) -/
  | summarizing : StepMsg
  /-- '完了' (line 301) -/
  | doneStep : StepMsg
deriving DecidableEq

/-- Error strings written to the `error` field, one constructor per literal
in app.py, numeric/textual payloads of the formatted strings kept as data. -/
inductive ErrMsg where
  /-- 'タイムアウト（{mins}分）' (line 197) -/
  | timeout (mins : Nat) : ErrMsg
  /-- '音声が認識されませんでした' (line 220) -/
  | noSpeech : ErrMsg
  /-- '処理エラー: {e}' (line 304) -/
  | processError (e : List Char) : ErrMsg
deriving DecidableEq

/-- Python `str.split()` splits on runs of whitespace and drops empty
pieces; this is the accumulator-style translation used for the word count
in the result stats (line 297). -/
def wordsAux : List Char → List Char → List (List Char)
  | [], acc => if acc.isEmpty then [] else [acc.reverse]
  | c :: rest, acc =>
    if c.isWhitespace then
      if acc.isEmpty then wordsAux rest [] else acc.reverse :: wordsAux rest []
    else wordsAux rest (c :: acc)

/-- Number of whitespace-separated words, `len(transcript.split())`. -/
def wordCount (t : List Char) : Nat := (wordsAux t []).length

/-- Payload stored under `result` on completion (lines 290-299). -/
structure ResultData where
  transcript : List Char
  meeting_minutes : List Char
  processing_time : ℚ
  /-- `stats.characters`, i.e. `len(transcript)` -/
  characters : Nat
  /-- `stats.estimated_duration` numeral, i.e. `len(transcript.split())//120` -/
  estimated_minutes : Nat
deriving DecidableEq

/-- Arguments of one `update_job_status` call made by the worker:
`status` is always passed; the remaining keyword arguments default to
`None`, modelled by `Option` (lines 54-71). -/
structure UpdateCall where
  status : String
  progress : Option ℚ
  current_step : Option StepMsg
  result : Option ResultData
  error : Option ErrMsg
deriving DecidableEq

/-- The `file_info` dict built in `main` (lines 404-408): set once at job
creation. -/
structure FileInfo where
  name : String
  size_mb : ℚ
  gcs_uri : String
deriving DecidableEq

/-- The `settings` dict built in `main` (lines 409-411). -/
structure Settings where
  speed_mode : String
deriving DecidableEq

/-- One persisted job record, the dict built by `create_job` (lines 38-49).
Timestamps are abstract clock readings. -/
structure JobData where
  job_id : String
  status : String
  created_at : Nat
  updated_at : Nat
  file_info : FileInfo
  settings : Settings
  progress : ℚ
  current_step : StepMsg
  result : Option ResultData
  error : Option ErrMsg
deriving DecidableEq

/-- The GCS `job_status/` folder, as an association list from job id to
record; `_save_job_data` writes are modelled by consing (latest wins on
lookup). -/
abbrev Store := List (String × JobData)

/-- `_load_job_data` (lines 95-108): read the record for an id, `none`
when absent. -/
def loadJobData (s : Store) (id : String) : Option JobData := s.lookup id

/-- `_save_job_data` (lines 83-93): the upload can fail, and the method
catches and swallows every exception, so a failed save leaves the store
unchanged and still returns normally.  `saveOk` is the oracle for whether
the upload succeeded. -/
def saveJobData (saveOk : Bool) (s : Store) (id : String) (jd : JobData) : Store :=
  if saveOk then (id, jd) :: s else s

/-- `create_job` (lines 35-52): build the fresh record and hand it to
`_save_job_data`, then return the generated id unconditionally.  The
generated uuid is the `newId` oracle, the clock reading is `now`. -/
def create_job (saveOk : Bool) (s : Store) (now : Nat) (newId : String)
    (fi : FileInfo) (se : Settings) : String × Store :=
  let jd : JobData :=
    { job_id := newId
      status := "created"
      created_at := now
      updated_at := now
      file_info := fi
      settings := se
      progress := 0
      current_step := StepMsg.waiting
      result := none
      error := none }
  (newId, saveJobData saveOk s newId jd)

/-- Field merge performed by `update_job_status` (lines 61-71): `status`
and `updated_at` are always overwritten; `progress` only when not `None`;
`current_step`, `result`, `error` only when truthy (all actual call-site
values are truthy, so `Option.some` models a truthy argument). -/
def applyUpdate (j : JobData) (now : Nat) (u : UpdateCall) : JobData :=
  { j with
    status := u.status
    updated_at := now
    progress := u.progress.getD j.progress
    current_step := u.current_step.getD j.current_step
    result := match u.result with
      | some r => some r
      | none => j.result
    error := match u.error with
      | some e => some e
      | none => j.error }

/-- `update_job_status` (lines 54-77): load, return `False` when the
record is missing, otherwise merge and save; returns the new store
alongside the boolean. -/
def update_job_status (saveOk : Bool) (s : Store) (now : Nat) (id : String)
    (u : UpdateCall) : Bool × Store :=
  match loadJobData s id with
  | none => (false, s)
  | some j => (true, saveJobData saveOk s id (applyUpdate j now u))

/-- `get_job_status` (lines 79-81) just delegates to `_load_job_data`. -/
def get_job_status (s : Store) (id : String) : Option JobData := loadJobData s id

/-- Per-mode timeout in seconds chosen by the `speed_mode` branch of
`process_audio_async` (lines 152-183): fast 1500, quality 2400, otherwise
(balanced or anything else) 1800. -/
def maxWaitTime (speed_mode : String) : Nat :=
  if speed_mode = "fast" then 1500
  else if speed_mode = "quality" then 2400
  else 1800

/-- Seconds slept between successive `operation.done()` polls: line 208 is
`time.sleep(30)` inside the loop shared by every mode, so the interval does
not depend on `speed_mode`. -/
def pollIntervalSeconds (speed_mode : String) : Nat := 30

/-- Progress estimate written during the polling loop (line 201):
`min(25 + (elapsed_time / max_wait_time) * 60, 85)`. -/
def progressEstimate (mw : Nat) (t : ℚ) : ℚ :=
  min (25 + (t / (mw : ℚ)) * 60) 85

/-- Remaining-minutes figure in the polling step label (line 202):
`max(0, (max_wait_time - elapsed_time) / 60)`. -/
def remainingMinutes (mw : Nat) (t : ℚ) : ℚ :=
  max 0 (((mw : ℚ) - t) / 60)

/-- Transcript assembly from the recognition results (lines 215-217): each
result's first alternative followed by a newline, concatenated in order. -/
def buildTranscript (rs : List (List Char)) : List Char :=
  (rs.map (fun r => r ++ ['\n'])).flatten

/-- Truthiness of `transcript.strip()` negated (line 219): a string strips
to empty exactly when every character is whitespace. -/
def isBlank (t : List Char) : Bool := t.all (fun c => c.isWhitespace)

/-- Cutoff `max_length` for the summarization input (line 230). -/
def max_length : Nat := 8000

/-- Suffix appended when the transcript is cut (line 232):
'...\n\n[注：長時間音声のため一部抜粋]'. -/
def excerptNote : List Char := String.toList "...\n\n[注：長時間音声のため一部抜粋]"

/-- The `transcript_sample` actually embedded in the summarization prompt
(lines 229-234): transcripts longer than `max_length` are cut to their
first `max_length` characters and the excerpt note is appended; shorter
transcripts pass through unchanged. -/
def transcriptSample (t : List Char) : List Char :=
  if t.length > max_length then t.take max_length ++ excerptNote else t

/-- Fallback `meeting_minutes` when the summarization block raises
(line 287): '議事録生成でエラーが発生しました: {e}\n\n音声転写テキスト:\n'
followed by the raw transcript. -/
def degradationNote (e : List Char) : List Char :=
  String.toList "議事録生成でエラーが発生しました: " ++ e
    ++ String.toList "\n\n音声転写テキスト:\n"

/-- The `result_data` dict (lines 290-299). -/
def mkResult (transcript minutes : List Char) (ptime : ℚ) : ResultData :=
  { transcript := transcript
    meeting_minutes := minutes
    processing_time := ptime
    characters := transcript.length
    estimated_minutes := wordCount transcript / 120 }

/-- Oracles for one run of `process_audio_async`: the job settings, the
outcomes of the external calls and the clock readings.  `poll k` is the
k-th `operation.done()` call, `elapsedAt k` the value of
`time.time() - start_time` measured right after the k-th poll returned
false, `fetchResp` the list of per-result transcripts delivered by
`operation.result()`, `fetchElapsed` the clock reading at line 213, and
`summarize` the outcome of the OpenAI block (lines 227-284). -/
structure Env where
  speed_mode : String
  submit : Except (List Char) Unit
  poll : Nat → Except (List Char) Bool
  elapsedAt : Nat → ℚ
  fetchResp : Except (List Char) (List (List Char))
  fetchElapsed : ℚ
  summarize : Except (List Char) (List Char)

/-- How the polling loop (lines 193-208) ended: timeout return, the
operation reporting done, or an exception from `operation.done()`. -/
inductive LoopOut where
  | timedOut : LoopOut
  | opDone : LoopOut
  | raised (e : List Char) : LoopOut
deriving DecidableEq

/-- Result of running the polling loop: the `update_job_status` calls it
made, the number of `operation.done()` polls it issued, and how it ended
(`none` when the fuel ran out before the loop did). -/
structure LoopRes where
  trace : List UpdateCall
  polls : Nat
  out : Option LoopOut
deriving DecidableEq

/-- Write of line 134. -/
def startUpd : UpdateCall :=
  ⟨"processing", some 10, some StepMsg.startRecog, none, none⟩

/-- Write of line 186. -/
def callingUpd : UpdateCall :=
  ⟨"processing", some 20, some StepMsg.callingApi, none, none⟩

/-- Write of line 191. -/
def runningUpd (mw : Nat) : UpdateCall :=
  ⟨"processing", some 25, some (StepMsg.running (mw / 60)), none, none⟩

/-- Write of lines 203-206, one per loop iteration. -/
def pollingUpd (mw : Nat) (t : ℚ) : UpdateCall :=
  ⟨"processing", some (progressEstimate mw t),
    some (StepMsg.polling (remainingMinutes mw t)), none, none⟩

/-- Write of line 197 on timeout. -/
def timeoutUpd (mw : Nat) : UpdateCall :=
  ⟨"failed", none, none, none, some (ErrMsg.timeout (mw / 60))⟩

/-- Write of line 211. -/
def fetchUpd : UpdateCall :=
  ⟨"processing", some 85, some StepMsg.fetching, none, none⟩

/-- Write of line 220 when no speech was recognized. -/
def noSpeechUpd : UpdateCall :=
  ⟨"failed", none, none, none, some ErrMsg.noSpeech⟩

/-- Write of line 224. -/
def summarizingUpd : UpdateCall :=
  ⟨"processing", some 90, some StepMsg.summarizing, none, none⟩

/-- Terminal write of line 301. -/
def completedUpd (rd : ResultData) : UpdateCall :=
  ⟨"completed", some 100, some StepMsg.doneStep, some rd, none⟩

/-- Write of line 304, the catch-all failure path. -/
def procErrorUpd (e : List Char) : UpdateCall :=
  ⟨"failed", none, none, none, some (ErrMsg.processError e)⟩

/-- The polling loop of lines 193-208: check `operation.done()` (one poll);
on an exception end with `raised`; when done, exit the loop; otherwise read
the clock, and if `elapsed_time > max_wait_time` write the timeout failure
and return, else write the progress estimate, sleep, repeat.  `fuel` bounds
the number of iterations modelled, `k` counts the polls already made. -/
def pollLoop (env : Env) (mw : Nat) : Nat → Nat → LoopRes
  | 0, _ => ⟨[], 0, none⟩
  | Nat.succ fuel, k =>
    match env.poll k with
    | Except.error e => ⟨[], 1, some (LoopOut.raised e)⟩
    | Except.ok true => ⟨[], 1, some LoopOut.opDone⟩
    | Except.ok false =>
      let t := env.elapsedAt k
      if (mw : ℚ) < t then
        ⟨[timeoutUpd mw], 1, some LoopOut.timedOut⟩
      else
        let r := pollLoop env mw fuel (k + 1)
        ⟨pollingUpd mw t :: r.trace, r.polls + 1, r.out⟩

/-- Outcome of one `process_audio_async` run: the ordered sequence of
`update_job_status` calls, the number of `operation.done()` polls, the
number of summarization calls started (0 or 1), and the `transcript_sample`
handed to the summarization prompt when one was built. -/
structure RunResult where
  trace : List UpdateCall
  polls : Nat
  summCalls : Nat
  summInput : Option (List Char)
deriving DecidableEq

/-- `process_audio_async` (lines 128-304) as a trace function.  The outer
`try/except` turns every exception from an external call into the final
'failed' write of line 304; the timeout and no-speech branches return
immediately after their 'failed' write; the completed write of line 301 is
the last statement of the `try` block. -/
def processAudioAsync (env : Env) (fuel : Nat) : Option RunResult :=
  match env.submit with
  | Except.error e => some ⟨[startUpd, callingUpd, procErrorUpd e], 0, 0, none⟩
  | Except.ok _ =>
    let mw := maxWaitTime env.speed_mode
    let lr := pollLoop env mw fuel 0
    match lr.out with
    | none => none
    | some (LoopOut.raised e) =>
      some ⟨[startUpd, callingUpd, runningUpd mw] ++ lr.trace ++ [procErrorUpd e],
        lr.polls, 0, none⟩
    | some LoopOut.timedOut =>
      some ⟨[startUpd, callingUpd, runningUpd mw] ++ lr.trace, lr.polls, 0, none⟩
    | some LoopOut.opDone =>
      match env.fetchResp with
      | Except.error e =>
        some ⟨[startUpd, callingUpd, runningUpd mw] ++ lr.trace
            ++ [fetchUpd, procErrorUpd e], lr.polls, 0, none⟩
      | Except.ok rs =>
        let transcript := buildTranscript rs
        if isBlank transcript then
          some ⟨[startUpd, callingUpd, runningUpd mw] ++ lr.trace
              ++ [fetchUpd, noSpeechUpd], lr.polls, 0, none⟩
        else
          let minutes :=
            match env.summarize with
            | Except.ok content => content
            | Except.error e => degradationNote e ++ transcript
          some ⟨[startUpd, callingUpd, runningUpd mw] ++ lr.trace
              ++ [fetchUpd, summarizingUpd,
                  completedUpd (mkResult transcript minutes (env.fetchElapsed / 60))],
            lr.polls, 1, some (transcriptSample transcript)⟩

/-- Progress values carried by the writes made while `status='processing'`,
in write order. -/
def processingProgress (tr : List UpdateCall) : List ℚ :=
  tr.filterMap (fun u => if u.status = "processing" then u.progress else none)

/-- Modelled from the spec: the repository's src/ contains no chunked
path (no ChunkSplitter or ChunkWorkerPool); per spec section 4.4 a chunk's
outcome is its transcript text or a failure marker for its index. -/
structure ChunkResult where
  index : Nat
  outcome : Option (List Char)
deriving DecidableEq

/-- Modelled from the spec: the failure marker text substituted for a
failed chunk; the spec fixes no particular wording, so a representative
constant is used. -/
def failureMarker : List Char := String.toList "[チャンク文字起こし失敗]"

/-- Modelled from the spec: the text a chunk contributes to the final
transcript — its transcript text, or the failure marker when it failed. -/
def renderChunk (c : ChunkResult) : List Char := c.outcome.getD failureMarker

/-- Ordering of chunk results by index, used for reassembly. -/
def chunkLE (a b : ChunkResult) : Prop := a.index ≤ b.index

instance : DecidableRel chunkLE := fun a b => Nat.decLe a.index b.index

instance : IsTotal ChunkResult chunkLE := ⟨fun a b => Nat.le_total a.index b.index⟩

instance : IsTrans ChunkResult chunkLE := ⟨fun _ _ _ h h₂ => Nat.le_trans h h₂⟩

/-- Strict version of `chunkLE`, used to identify the sorted arrangement
uniquely when all indices are distinct. -/
def chunkLT (a b : ChunkResult) : Prop := a.index < b.index

instance : IsAntisymm ChunkResult chunkLT :=
  ⟨fun _ _ h h₂ => absurd h₂ (Nat.lt_asymm h)⟩

/-- Modelled from the spec: final transcript assembly for the chunked
path, `transcript = join(chunks sorted by index, using failure marker text
for failed indices)` (spec section 4.4), taking the chunk results in the
order their processing completed. -/
def assembleTranscript (cs : List ChunkResult) : List Char :=
  ((List.insertionSort chunkLE cs).map renderChunk).flatten

/-- Chunk texts for the three-chunk out-of-order completion scenario. -/
def chunkTextA : List Char := String.toList "チャンクA。"

/-- Second chunk text of the scenario. -/
def chunkTextB : List Char := String.toList "チャンクB。"

/-- Third chunk text of the scenario. -/
def chunkTextC : List Char := String.toList "チャンクC。"

/-- Chunk results listed in completion order 2, 0, 1. -/
def outOfOrderChunks : List ChunkResult :=
  [⟨2, some chunkTextC⟩, ⟨0, some chunkTextA⟩, ⟨1, some chunkTextB⟩]

/-- Per-index outcome function for the scenario. -/
def chunkTextAt : Nat → Option (List Char) :=
  fun i => [some chunkTextA, some chunkTextB, some chunkTextC].getD i none

/-- Environment whose submission call raises, exercising the catch-all
failure path. -/
def envSubmitFail : Env :=
  { speed_mode := "balanced"
    submit := Except.error []
    poll := fun _ => Except.ok false
    elapsedAt := fun _ => 0
    fetchResp := Except.ok []
    fetchElapsed := 0
    summarize := Except.ok [] }

/-- Run produced by `envSubmitFail`. -/
def runSubmitFail : RunResult :=
  ⟨[startUpd, callingUpd, procErrorUpd []], 0, 0, none⟩

/-- Fast-mode environment whose operation never reports done and whose
first clock reading already exceeds the fast timeout of 1500 seconds. -/
def envTimeout : Env :=
  { speed_mode := "fast"
    submit := Except.ok ()
    poll := fun _ => Except.ok false
    elapsedAt := fun _ => 1501
    fetchResp := Except.ok []
    fetchElapsed := 0
    summarize := Except.ok [] }

/-- Environment whose operation is done at the first poll and whose
recognition and summarization both succeed. -/
def envQuick : Env :=
  { speed_mode := "balanced"
    submit := Except.ok ()
    poll := fun _ => Except.ok true
    elapsedAt := fun _ => 0
    fetchResp := Except.ok [[Char.ofNat 97]]
    fetchElapsed := 0
    summarize := Except.ok [Char.ofNat 109] }

/-- Environment like `envQuick` whose summarization block raises. -/
def envDegrade : Env :=
  { speed_mode := "balanced"
    submit := Except.ok ()
    poll := fun _ => Except.ok true
    elapsedAt := fun _ => 0
    fetchResp := Except.ok [[Char.ofNat 97]]
    fetchElapsed := 0
    summarize := Except.error [Char.ofNat 120] }

/-- Environment whose recognition completes but delivers no results, so
the assembled transcript is empty. -/
def envNoSpeech : Env :=
  { speed_mode := "balanced"
    submit := Except.ok ()
    poll := fun _ => Except.ok true
    elapsedAt := fun _ => 0
    fetchResp := Except.ok []
    fetchElapsed := 0
    summarize := Except.ok [] }

/-- Sample file info for store-level witnesses. -/
def sampleFileInfo : FileInfo := ⟨"meeting.wav", 12, "gs://bucket/audio_meeting.wav"⟩

/-- Sample settings for store-level witnesses. -/
def sampleSettings : Settings := ⟨"balanced"⟩

/-- Sample persisted job record. -/
def sampleJob : JobData :=
  ⟨"j1", "created", 0, 0, sampleFileInfo, sampleSettings, 0, StepMsg.waiting, none, none⟩

/-- Store holding exactly `sampleJob`. -/
def sampleStore : Store := [("j1", sampleJob)]

/-- Update call supplying status, progress and step but neither result nor
error. -/
def sampleUpd : UpdateCall :=
  ⟨"processing", some 10, some StepMsg.startRecog, none, none⟩

/-- Transcript of 8000 identical characters followed by one tail. -/
def longTranscriptA : List Char :=
  List.replicate 8000 (Char.ofNat 97) ++ String.toList "終端テキスト一"

/-- Transcript agreeing with `longTranscriptA` on the first 8000
characters but with a different tail. -/
def longTranscriptB : List Char :=
  List.replicate 8000 (Char.ofNat 97) ++ String.toList "終端テキスト二"

/-- C6 counterexample: the summarization input for an over-long transcript
is not built from head, middle and tail segments — two transcripts longer
than `max_length` that agree on their first `max_length` characters but
differ afterwards produce the identical sample, and that sample is exactly
the first `max_length` characters plus the fixed excerpt note, so nothing
from the middle or tail is sampled. -/
theorem sampling_head_middle_tail_cex :
    longTranscriptA.length > max_length ∧
    longTranscriptB.length > max_length ∧
    longTranscriptA ≠ longTranscriptB ∧
    transcriptSample longTranscriptA = transcriptSample longTranscriptB ∧
    transcriptSample longTranscriptA
      = List.replicate 8000 (Char.ofNat 97) ++ excerptNote := by
  have hlen : (List.replicate 8000 (Char.ofNat 97)).length = 8000 :=
    List.length_replicate 8000 (Char.ofNat 97)
  have htailA : (String.toList "終端テキスト一").length = 7 := rfl
  have htailB : (String.toList "終端テキスト二").length = 7 := rfl
  have hA : longTranscriptA.length = 8007 := by
    rw [longTranscriptA, List.length_append, hlen, htailA]
  have hB : longTranscriptB.length = 8007 := by
    rw [longTranscriptB, List.length_append, hlen, htailB]
  have hgtA : longTranscriptA.length > max_length := by
    rw [hA]; norm_num [max_length]
  have hgtB : longTranscriptB.length > max_length := by
    rw [hB]; norm_num [max_length]
  have hsA : transcriptSample longTranscriptA
      = List.replicate 8000 (Char.ofNat 97) ++ excerptNote := by
    unfold transcriptSample
    rw [if_pos hgtA, longTranscriptA, max_length, List.take_left' hlen]
  have hsB : transcriptSample longTranscriptB
      = List.replicate 8000 (Char.ofNat 97) ++ excerptNote := by
    unfold transcriptSample
    rw [if_pos hgtB, longTranscriptB, max_length, List.take_left' hlen]
  refine ⟨hgtA, hgtB, ?_, hsA.trans hsB.symm, hsA⟩
  intro h
  rw [longTranscriptA, longTranscriptB] at h
  exact absurd (List.append_cancel_left h) (by decide)

/-- C6 amended: for every transcript longer than `max_length` (8000)
characters, the text passed to summarization is the naive head truncation:
the first `max_length` characters followed by the fixed note that an
excerpt was taken; no middle or tail segment is included. -/
theorem sampling_is_head_cut (t : List Char) (h : t.length > max_length) :
    transcriptSample t = t.take max_length ++ excerptNote := by
  unfold transcriptSample
  rw [if_pos h]

/-- Witness for the amended C6 theorem on a concrete 8001-character
transcript. -/
theorem sampling_is_head_cut_w :
    (List.replicate 8001 (Char.ofNat 97)).length > max_length ∧
    transcriptSample (List.replicate 8001 (Char.ofNat 97))
      = (List.replicate 8001 (Char.ofNat 97)).take max_length ++ excerptNote :=
  ⟨by rw [List.length_replicate]; norm_num [max_length],
    sampling_is_head_cut (List.replicate 8001 (Char.ofNat 97))
      (by rw [List.length_replicate]; norm_num [max_length])⟩

/-- C7 counterexample: the interval between successive polls is the
`time.sleep(30)` of line 208, shared by every mode, so the fast-mode
interval is not strictly shorter than the quality-mode interval. -/
theorem poll_interval_cex :
    ¬ pollIntervalSeconds "fast" < pollIntervalSeconds "quality" := by
  decide

/-- C7 amended: the poll interval is the same fixed 30 seconds for every
mode (in particular for fast and quality), while the per-mode timeout
thresholds are pairwise distinct. -/
theorem poll_interval_same_amended :
    (∀ m : String, pollIntervalSeconds m = 30) ∧
    pollIntervalSeconds "fast" = pollIntervalSeconds "quality" ∧
    maxWaitTime "fast" ≠ maxWaitTime "balanced" ∧
    maxWaitTime "fast" ≠ maxWaitTime "quality" ∧
    maxWaitTime "balanced" ≠ maxWaitTime "quality" :=
  ⟨fun _ => rfl, rfl, by decide, by decide, by decide⟩

/-- C8: `update_job_status` on an existing record merges only the supplied
fields — `job_id`, `file_info`, `settings` and `created_at` are never
touched, and each optional field keeps its previous value whenever the
call does not supply it. -/
theorem update_preserves_unsupplied (saveOk : Bool) (s : Store) (now : Nat)
    (id : String) (u : UpdateCall) (j : JobData)
    (h : loadJobData s id = some j) :
    (update_job_status saveOk s now id u).1 = true ∧
    ∃ j', loadJobData (update_job_status saveOk s now id u).2 id = some j' ∧
      j'.job_id = j.job_id ∧ j'.file_info = j.file_info ∧
      j'.settings = j.settings ∧ j'.created_at = j.created_at ∧
      (u.progress = none → j'.progress = j.progress) ∧
      (u.current_step = none → j'.current_step = j.current_step) ∧
      (u.result = none → j'.result = j.result) ∧
      (u.error = none → j'.error = j.error) := by
  unfold update_job_status
  rw [h]
  cases saveOk with
  | false =>
    exact ⟨rfl, j, by simpa [saveJobData] using h, rfl, rfl, rfl, rfl,
      fun _ => rfl, fun _ => rfl, fun _ => rfl, fun _ => rfl⟩
  | true =>
    refine ⟨rfl, applyUpdate j now u, ?_, rfl, rfl, rfl, rfl, ?_, ?_, ?_, ?_⟩
    · simp [saveJobData, loadJobData, List.lookup]
    · intro hn; simp [applyUpdate, hn]
    · intro hn; simp [applyUpdate, hn]
    · intro hn; simp [applyUpdate, hn]
    · intro hn; simp [applyUpdate, hn]

/-- Witness for C8 on a concrete one-record store and an update supplying
status, progress and step only. -/
theorem update_preserves_unsupplied_w :
    loadJobData sampleStore "j1" = some sampleJob ∧
    ((update_job_status true sampleStore 1 "j1" sampleUpd).1 = true ∧
      ∃ j', loadJobData (update_job_status true sampleStore 1 "j1" sampleUpd).2 "j1"
          = some j' ∧
        j'.job_id = sampleJob.job_id ∧ j'.file_info = sampleJob.file_info ∧
        j'.settings = sampleJob.settings ∧ j'.created_at = sampleJob.created_at ∧
        (sampleUpd.progress = none → j'.progress = sampleJob.progress) ∧
        (sampleUpd.current_step = none → j'.current_step = sampleJob.current_step) ∧
        (sampleUpd.result = none → j'.result = sampleJob.result) ∧
        (sampleUpd.error = none → j'.error = sampleJob.error)) :=
  ⟨rfl, update_preserves_unsupplied true sampleStore 1 "j1" sampleUpd sampleJob rfl⟩

/-- C10: `create_job` returns the freshly generated id even when the
underlying save fails (the store swallows the exception), so with a failed
save the id it returned is immediately reported as not found by
`get_job_status`. -/
theorem create_job_id_despite_save_failure (s : Store) (now : Nat)
    (newId : String) (fi : FileInfo) (se : Settings)
    (hfresh : loadJobData s newId = none) :
    (create_job false s now newId fi se).1 = newId ∧
    get_job_status (create_job false s now newId fi se).2 newId = none :=
  ⟨rfl, by simpa [create_job, saveJobData, get_job_status] using hfresh⟩

/-- Witness for C10 on the empty store. -/
theorem create_job_id_despite_save_failure_w :
    loadJobData [] "j9" = none ∧
    ((create_job false [] 0 "j9" sampleFileInfo sampleSettings).1 = "j9" ∧
      get_job_status (create_job false [] 0 "j9" sampleFileInfo sampleSettings).2 "j9"
        = none) :=
  ⟨rfl, create_job_id_despite_save_failure [] 0 "j9" sampleFileInfo sampleSettings rfl⟩

/-- C5: when transcription succeeds (the operation reports done and the
fetched transcript is not blank) but the summarization block raises, the
run still ends with the terminal 'completed' write at progress 100, and
the stored meeting minutes are the degradation note followed by the raw
transcript — the job does not fail. -/
theorem summarization_degrades (env : Env) (fuel : Nat) (rs : List (List Char))
    (e : List Char) (r : RunResult)
    (hsub : env.submit = Except.ok ())
    (hout : (pollLoop env (maxWaitTime env.speed_mode) fuel 0).out
      = some LoopOut.opDone)
    (hresp : env.fetchResp = Except.ok rs)
    (hnb : isBlank (buildTranscript rs) = false)
    (hsum : env.summarize = Except.error e)
    (hr : processAudioAsync env fuel = some r) :
    ∃ rd : ResultData,
      r.trace.getLast? = some (completedUpd rd) ∧
      (completedUpd rd).status = "completed" ∧
      (completedUpd rd).progress = some 100 ∧
      rd.meeting_minutes = degradationNote e ++ buildTranscript rs := by
  simp only [processAudioAsync, hsub, hout, hresp, hnb, hsum, Bool.false_eq_true,
    if_false, Option.some.injEq] at hr
  subst hr
  refine ⟨mkResult (buildTranscript rs) (degradationNote e ++ buildTranscript rs)
    (env.fetchElapsed / 60), ?_, rfl, rfl, rfl⟩
  rw [show [startUpd, callingUpd, runningUpd (maxWaitTime env.speed_mode)]
        ++ (pollLoop env (maxWaitTime env.speed_mode) fuel 0).trace
        ++ [fetchUpd, summarizingUpd,
            completedUpd (mkResult (buildTranscript rs)
              (degradationNote e ++ buildTranscript rs) (env.fetchElapsed / 60))]
      = ([startUpd, callingUpd, runningUpd (maxWaitTime env.speed_mode)]
          ++ (pollLoop env (maxWaitTime env.speed_mode) fuel 0).trace
          ++ [fetchUpd, summarizingUpd])
        ++ [completedUpd (mkResult (buildTranscript rs)
              (degradationNote e ++ buildTranscript rs) (env.fetchElapsed / 60))]
      by simp]
  exact List.getLast?_concat _

/-- Witness for C5: the operation is done at the first poll, recognition
returns one character of text, and the summarization call raises. -/
theorem summarization_degrades_w :
    envDegrade.submit = Except.ok () ∧
    (pollLoop envDegrade (maxWaitTime envDegrade.speed_mode) 1 0).out
      = some LoopOut.opDone ∧
    envDegrade.fetchResp = Except.ok [[Char.ofNat 97]] ∧
    isBlank (buildTranscript [[Char.ofNat 97]]) = false ∧
    envDegrade.summarize = Except.error [Char.ofNat 120] ∧
    ∃ r : RunResult, processAudioAsync envDegrade 1 = some r ∧
      ∃ rd : ResultData,
        r.trace.getLast? = some (completedUpd rd) ∧
        (completedUpd rd).status = "completed" ∧
        (completedUpd rd).progress = some 100 ∧
        rd.meeting_minutes
          = degradationNote [Char.ofNat 120] ++ buildTranscript [[Char.ofNat 97]] :=
  ⟨rfl, by decide, rfl, by decide, rfl,
    ⟨_, rfl, summarization_degrades envDegrade 1 [[Char.ofNat 97]] [Char.ofNat 120] _
      rfl (by decide) rfl (by decide) rfl rfl⟩⟩

/-- C9: when the operation completes but the assembled transcript is empty
or whitespace-only, the run ends with a 'failed' write carrying the
no-speech error, and no summarization call is started. -/
theorem empty_transcript_fails (env : Env) (fuel : Nat) (rs : List (List Char))
    (r : RunResult)
    (hsub : env.submit = Except.ok ())
    (hout : (pollLoop env (maxWaitTime env.speed_mode) fuel 0).out
      = some LoopOut.opDone)
    (hresp : env.fetchResp = Except.ok rs)
    (hblank : isBlank (buildTranscript rs) = true)
    (hr : processAudioAsync env fuel = some r) :
    r.trace.getLast? = some noSpeechUpd ∧
    noSpeechUpd.status = "failed" ∧
    noSpeechUpd.error = some ErrMsg.noSpeech ∧
    r.summCalls = 0 ∧ r.summInput = none := by
  simp only [processAudioAsync, hsub, hout, hresp, hblank, if_true,
    Option.some.injEq] at hr
  subst hr
  refine ⟨?_, rfl, rfl, rfl, rfl⟩
  rw [show [startUpd, callingUpd, runningUpd (maxWaitTime env.speed_mode)]
        ++ (pollLoop env (maxWaitTime env.speed_mode) fuel 0).trace
        ++ [fetchUpd, noSpeechUpd]
      = ([startUpd, callingUpd, runningUpd (maxWaitTime env.speed_mode)]
          ++ (pollLoop env (maxWaitTime env.speed_mode) fuel 0).trace
          ++ [fetchUpd])
        ++ [noSpeechUpd]
      by simp]
  exact List.getLast?_concat _

/-- Witness for C9: recognition completes with an empty result list, so
the assembled transcript is empty. -/
theorem empty_transcript_fails_w :
    envNoSpeech.submit = Except.ok () ∧
    (pollLoop envNoSpeech (maxWaitTime envNoSpeech.speed_mode) 1 0).out
      = some LoopOut.opDone ∧
    envNoSpeech.fetchResp = Except.ok [] ∧
    isBlank (buildTranscript []) = true ∧
    ∃ r : RunResult, processAudioAsync envNoSpeech 1 = some r ∧
      (r.trace.getLast? = some noSpeechUpd ∧
        noSpeechUpd.status = "failed" ∧
        noSpeechUpd.error = some ErrMsg.noSpeech ∧
        r.summCalls = 0 ∧ r.summInput = none) :=
  ⟨rfl, by decide, rfl, by decide,
    ⟨_, rfl, empty_transcript_fails envNoSpeech 1 [] _ rfl (by decide) rfl
      (by decide) rfl⟩⟩

/-- When the operation never reports done, the first clock reading that
exceeds the timeout ends the loop with the timeout failure as its final
write, after exactly one more poll than the number of under-timeout
readings. -/
theorem pollLoop_timeout (env : Env) (mw : Nat)
    (hpoll : ∀ j, env.poll j = Except.ok false) :
    ∀ n fuel k, (∀ j, j < n → ¬ ((mw : ℚ) < env.elapsedAt (k + j))) →
      ((mw : ℚ) < env.elapsedAt (k + n)) → n + 1 ≤ fuel →
      ∃ pre : List UpdateCall,
        pollLoop env mw fuel k
          = ⟨pre ++ [timeoutUpd mw], n + 1, some LoopOut.timedOut⟩ := by
  intro n
  induction n with
  | zero =>
    intro fuel k _ hex hfuel
    obtain ⟨fuel', rfl⟩ : ∃ f, fuel = f + 1 := ⟨fuel - 1, by omega⟩
    rw [Nat.add_zero] at hex
    exact ⟨[], by simp [pollLoop, hpoll k, hex]⟩
  | succ n ih =>
    intro fuel k hlt hex hfuel
    obtain ⟨fuel', rfl⟩ : ∃ f, fuel = f + 1 := ⟨fuel - 1, by omega⟩
    have h0 : ¬ ((mw : ℚ) < env.elapsedAt k) := by
      have h := hlt 0 (Nat.succ_pos n)
      rwa [Nat.add_zero] at h
    obtain ⟨pre, hpre⟩ := ih fuel' (k + 1)
      (fun j hj => by
        rw [show k + 1 + j = k + (j + 1) by omega]
        exact hlt (j + 1) (by omega))
      (by rw [show k + 1 + n = k + (n + 1) by omega]; exact hex)
      (by omega)
    refine ⟨pollingUpd mw (env.elapsedAt k) :: pre, ?_⟩
    simp [pollLoop, hpoll k, h0, hpre]

/-- C1: with the per-mode timeout thresholds (fast 1500 s, balanced
1800 s, quality 2400 s), a run whose operation never reports done and
whose elapsed time exceeds the mode's threshold ends with the job updated
to status 'failed' carrying the timeout error, and the run issues no poll
after that: its total poll count is exactly one more than the number of
under-threshold clock readings. -/
theorem timeout_fires (env : Env) (fuel n : Nat)
    (hsub : env.submit = Except.ok ())
    (hpoll : ∀ j, env.poll j = Except.ok false)
    (hlt : ∀ j, j < n → ¬ ((maxWaitTime env.speed_mode : ℚ) < env.elapsedAt j))
    (hex : (maxWaitTime env.speed_mode : ℚ) < env.elapsedAt n)
    (hfuel : n + 1 ≤ fuel) :
    maxWaitTime "fast" = 1500 ∧ maxWaitTime "balanced" = 1800 ∧
    maxWaitTime "quality" = 2400 ∧
    ∃ r : RunResult, processAudioAsync env fuel = some r ∧
      r.trace.getLast? = some (timeoutUpd (maxWaitTime env.speed_mode)) ∧
      (timeoutUpd (maxWaitTime env.speed_mode)).status = "failed" ∧
      (timeoutUpd (maxWaitTime env.speed_mode)).error
        = some (ErrMsg.timeout (maxWaitTime env.speed_mode / 60)) ∧
      r.polls = n + 1 := by
  refine ⟨by decide, by decide, by decide, ?_⟩
  obtain ⟨pre, hpre⟩ := pollLoop_timeout env (maxWaitTime env.speed_mode) hpoll n fuel 0
    (fun j hj => by rw [Nat.zero_add]; exact hlt j hj)
    (by rw [Nat.zero_add]; exact hex) hfuel
  refine ⟨⟨[startUpd, callingUpd, runningUpd (maxWaitTime env.speed_mode)]
      ++ (pre ++ [timeoutUpd (maxWaitTime env.speed_mode)]), n + 1, 0, none⟩,
    ?_, ?_, rfl, rfl, rfl⟩
  · simp only [processAudioAsync, hsub, hpre]
  · rw [show [startUpd, callingUpd, runningUpd (maxWaitTime env.speed_mode)]
          ++ (pre ++ [timeoutUpd (maxWaitTime env.speed_mode)])
        = ([startUpd, callingUpd, runningUpd (maxWaitTime env.speed_mode)] ++ pre)
          ++ [timeoutUpd (maxWaitTime env.speed_mode)] by simp]
    exact List.getLast?_concat _

/-- Witness for C1: a fast-mode run whose very first clock reading, 1501
seconds, already exceeds the 1500-second fast threshold. -/
theorem timeout_fires_w :
    envTimeout.submit = Except.ok () ∧
    (∀ j, envTimeout.poll j = Except.ok false) ∧
    ((maxWaitTime envTimeout.speed_mode : ℚ) < envTimeout.elapsedAt 0) ∧
    (maxWaitTime "fast" = 1500 ∧ maxWaitTime "balanced" = 1800 ∧
      maxWaitTime "quality" = 2400 ∧
      ∃ r : RunResult, processAudioAsync envTimeout 1 = some r ∧
        r.trace.getLast? = some (timeoutUpd (maxWaitTime envTimeout.speed_mode)) ∧
        (timeoutUpd (maxWaitTime envTimeout.speed_mode)).status = "failed" ∧
        (timeoutUpd (maxWaitTime envTimeout.speed_mode)).error
          = some (ErrMsg.timeout (maxWaitTime envTimeout.speed_mode / 60)) ∧
        r.polls = 0 + 1) :=
  ⟨rfl, fun _ => rfl, by norm_num [envTimeout, maxWaitTime],
    timeout_fires envTimeout 1 0 rfl (fun _ => rfl)
      (fun j hj => absurd hj (Nat.not_lt_zero j))
      (by norm_num [envTimeout, maxWaitTime]) (Nat.le_refl 1)⟩

/-- Every write the polling loop makes before (or without) timing out has
status 'processing'. -/
theorem pollLoop_processing (env : Env) (mw : Nat) :
    ∀ fuel k, (pollLoop env mw fuel k).out ≠ some LoopOut.timedOut →
      ∀ x ∈ (pollLoop env mw fuel k).trace, x.status = "processing" := by
  intro fuel
  induction fuel with
  | zero => intro k _ x hx; simp [pollLoop] at hx
  | succ fuel ih =>
    intro k hout x hx
    cases hp : env.poll k with
    | error e => simp [pollLoop, hp] at hx
    | ok b =>
      cases b with
      | true => simp [pollLoop, hp] at hx
      | false =>
        by_cases ht : (mw : ℚ) < env.elapsedAt k
        · exact absurd (by simp [pollLoop, hp, ht]) hout
        · have hx' : x = pollingUpd mw (env.elapsedAt k)
              ∨ x ∈ (pollLoop env mw fuel (k + 1)).trace := by
            simpa [pollLoop, hp, ht] using hx
          have hout' : (pollLoop env mw fuel (k + 1)).out ≠ some LoopOut.timedOut := by
            intro hc
            exact hout (by simp [pollLoop, hp, ht, hc])
          rcases hx' with rfl | hx'
          · rfl
          · exact ih (k + 1) hout' x hx'

/-- When the polling loop times out, its trace is processing-status writes
followed by the single timeout failure write. -/
theorem pollLoop_timedOut_shape (env : Env) (mw : Nat) :
    ∀ fuel k, (pollLoop env mw fuel k).out = some LoopOut.timedOut →
      ∃ B, (pollLoop env mw fuel k).trace = B ++ [timeoutUpd mw] ∧
        ∀ x ∈ B, x.status = "processing" := by
  intro fuel
  induction fuel with
  | zero => intro k h; simp [pollLoop] at h
  | succ fuel ih =>
    intro k h
    cases hp : env.poll k with
    | error e => simp [pollLoop, hp] at h
    | ok b =>
      cases b with
      | true => simp [pollLoop, hp] at h
      | false =>
        by_cases ht : (mw : ℚ) < env.elapsedAt k
        · exact ⟨[], by simp [pollLoop, hp, ht], by simp⟩
        · have h' : (pollLoop env mw fuel (k + 1)).out = some LoopOut.timedOut := by
            simpa [pollLoop, hp, ht] using h
          obtain ⟨B, hB, hBp⟩ := ih (k + 1) h'
          refine ⟨pollingUpd mw (env.elapsedAt k) :: B, ?_, ?_⟩
          · simp [pollLoop, hp, ht, hB]
          · intro x hx
            rcases List.mem_cons.mp hx with rfl | hx
            · rfl
            · exact hBp x hx

/-- In a list of processing-status writes followed by one final write, any
decomposition around a non-processing write puts that write last. -/
theorem last_of_terminal (A : List UpdateCall) (t u : UpdateCall)
    (pre post : List UpdateCall)
    (hA : ∀ x ∈ A, x.status = "processing")
    (h : A ++ [t] = pre ++ u :: post)
    (hu : u.status ≠ "processing") : post = [] := by
  by_contra hpost
  have hlen : A.length + 1 = pre.length + (post.length + 1) := by
    have hl := congrArg List.length h
    simpa [List.length_append] using hl
  have hlt : pre.length < A.length := by
    have hp0 : 0 < post.length := List.length_pos.mpr hpost
    omega
  have hget : (pre ++ u :: post)[pre.length]? = some u := by
    rw [List.getElem?_append_right (Nat.le_refl pre.length)]
    simp
  have hget2 : (A ++ [t])[pre.length]? = some u := by rw [h]; exact hget
  have hgetA : A[pre.length]? = some u := by
    rw [List.getElem?_append] at hget2
    simpa [hlt] using hget2
  have hmem : u ∈ A := List.getElem?_mem hgetA
  exact hu (hA u hmem)

/-- The first three writes of the worker are processing-status writes. -/
theorem preWritesProcessing (mw : Nat) :
    ∀ x ∈ [startUpd, callingUpd, runningUpd mw], x.status = "processing" := by
  intro x hx
  rcases List.mem_cons.mp hx with rfl | hx
  · rfl
  rcases List.mem_cons.mp hx with rfl | hx
  · rfl
  rcases List.mem_cons.mp hx with rfl | hx
  · rfl
  · simp at hx

/-- Concatenation preserves the all-processing property. -/
theorem mem_append_processing (A B : List UpdateCall)
    (hA : ∀ x ∈ A, x.status = "processing")
    (hB : ∀ x ∈ B, x.status = "processing") :
    ∀ x ∈ A ++ B, x.status = "processing" := by
  intro x hx
  rcases List.mem_append.mp hx with h | h
  · exact hA x h
  · exact hB x h

/-- C2: in every run of the worker, a write with terminal status ('failed'
or 'completed') is the final write of the run — nothing follows it in the
trace, so the job's persisted terminal record is never changed by a later
write of that run. -/
theorem terminal_write_final (env : Env) (fuel : Nat) (r : RunResult)
    (pre post : List UpdateCall) (u : UpdateCall)
    (hr : processAudioAsync env fuel = some r)
    (hsplit : r.trace = pre ++ u :: post)
    (hterm : u.status = "failed" ∨ u.status = "completed") :
    post = [] := by
  have hu : u.status ≠ "processing" := by
    rcases hterm with h | h <;> rw [h] <;> decide
  cases hsub : env.submit with
  | error e =>
    simp only [processAudioAsync, hsub, Option.some.injEq] at hr
    subst hr
    exact last_of_terminal [startUpd, callingUpd] (procErrorUpd e) u pre post
      (by decide) hsplit hu
  | ok _ =>
    cases hout : (pollLoop env (maxWaitTime env.speed_mode) fuel 0).out with
    | none =>
      simp only [processAudioAsync, hsub, hout] at hr
      exact Option.noConfusion hr
    | some o =>
      cases o with
      | raised e =>
        have hproc := pollLoop_processing env (maxWaitTime env.speed_mode) fuel 0
          (by rw [hout]; simp)
        simp only [processAudioAsync, hsub, hout, Option.some.injEq] at hr
        subst hr
        exact last_of_terminal
          ([startUpd, callingUpd, runningUpd (maxWaitTime env.speed_mode)]
            ++ (pollLoop env (maxWaitTime env.speed_mode) fuel 0).trace)
          (procErrorUpd e) u pre post
          (mem_append_processing _ _ (preWritesProcessing _) hproc)
          hsplit hu
      | timedOut =>
        obtain ⟨B, hB, hBp⟩ :=
          pollLoop_timedOut_shape env (maxWaitTime env.speed_mode) fuel 0 hout
        simp only [processAudioAsync, hsub, hout, Option.some.injEq] at hr
        subst hr
        rw [hB] at hsplit
        refine last_of_terminal
          ([startUpd, callingUpd, runningUpd (maxWaitTime env.speed_mode)] ++ B)
          (timeoutUpd (maxWaitTime env.speed_mode)) u pre post
          (mem_append_processing _ _ (preWritesProcessing _) hBp) ?_ hu
        rw [List.append_assoc]
        exact hsplit
      | opDone =>
        have hproc := pollLoop_processing env (maxWaitTime env.speed_mode) fuel 0
          (by rw [hout]; simp)
        cases hresp : env.fetchResp with
        | error e =>
          simp only [processAudioAsync, hsub, hout, hresp, Option.some.injEq] at hr
          subst hr
          refine last_of_terminal
            (([startUpd, callingUpd, runningUpd (maxWaitTime env.speed_mode)]
              ++ (pollLoop env (maxWaitTime env.speed_mode) fuel 0).trace)
              ++ [fetchUpd])
            (procErrorUpd e) u pre post
            (mem_append_processing _ _
              (mem_append_processing _ _ (preWritesProcessing _) hproc)
              (by decide)) ?_ hu
          rw [List.append_assoc]
          exact hsplit
        | ok rs =>
          by_cases hb : isBlank (buildTranscript rs) = true
          · simp only [processAudioAsync, hsub, hout, hresp, hb, if_true,
              Option.some.injEq] at hr
            subst hr
            refine last_of_terminal
              (([startUpd, callingUpd, runningUpd (maxWaitTime env.speed_mode)]
                ++ (pollLoop env (maxWaitTime env.speed_mode) fuel 0).trace)
                ++ [fetchUpd])
              noSpeechUpd u pre post
              (mem_append_processing _ _
                (mem_append_processing _ _ (preWritesProcessing _) hproc)
                (by decide)) ?_ hu
            rw [List.append_assoc]
            exact hsplit
          · have hb' : isBlank (buildTranscript rs) = false := by
              cases hq : isBlank (buildTranscript rs)
              · rfl
              · exact absurd hq hb
            simp only [processAudioAsync, hsub, hout, hresp, hb',
              Bool.false_eq_true, if_false, Option.some.injEq] at hr
            subst hr
            refine last_of_terminal
              (([startUpd, callingUpd, runningUpd (maxWaitTime env.speed_mode)]
                ++ (pollLoop env (maxWaitTime env.speed_mode) fuel 0).trace)
                ++ [fetchUpd, summarizingUpd])
              (completedUpd (mkResult (buildTranscript rs)
                (match env.summarize with
                | Except.ok content => content
                | Except.error e => degradationNote e ++ buildTranscript rs)
                (env.fetchElapsed / 60))) u pre post
              (mem_append_processing _ _
                (mem_append_processing _ _ (preWritesProcessing _) hproc)
                (by decide)) ?_ hu
            rw [List.append_assoc]
            exact hsplit

/-- Witness for C2: the run whose submission fails ends in a 'failed'
write, which is the final element of its trace. -/
theorem terminal_write_final_w :
    processAudioAsync envSubmitFail 0 = some runSubmitFail ∧
    runSubmitFail.trace = [startUpd, callingUpd] ++ procErrorUpd [] :: [] ∧
    ((procErrorUpd []).status = "failed" ∨ (procErrorUpd []).status = "completed") ∧
    ([] : List UpdateCall) = [] :=
  ⟨rfl, rfl, Or.inl rfl,
    terminal_write_final envSubmitFail 0 runSubmitFail [startUpd, callingUpd] []
      (procErrorUpd []) rfl rfl (Or.inl rfl)⟩

/-- Every mode's timeout threshold is positive. -/
theorem maxWaitTime_pos (m : String) : 0 < maxWaitTime m := by
  unfold maxWaitTime
  split
  · norm_num
  · split <;> norm_num

/-- The polling-loop progress estimate is non-decreasing in elapsed time. -/
theorem progressEstimate_mono (mw : Nat) (hmw : 0 < mw) (t₁ t₂ : ℚ)
    (h : t₁ ≤ t₂) : progressEstimate mw t₁ ≤ progressEstimate mw t₂ := by
  have hmw' : (0 : ℚ) < (mw : ℚ) := by exact_mod_cast hmw
  unfold progressEstimate
  apply min_le_min _ (le_refl (85 : ℚ))
  have hdiv : t₁ / (mw : ℚ) ≤ t₂ / (mw : ℚ) :=
    (div_le_div_iff_of_pos_right hmw').mpr h
  have h60 := mul_le_mul_of_nonneg_right hdiv (by norm_num : (0 : ℚ) ≤ 60)
  linarith

/-- With a non-negative elapsed time the estimate is at least the 25 the
loop starts from. -/
theorem progressEstimate_ge (mw : Nat) (t : ℚ) (ht : 0 ≤ t) :
    25 ≤ progressEstimate mw t := by
  unfold progressEstimate
  apply le_min _ (by norm_num)
  have hq : 0 ≤ t / (mw : ℚ) * 60 := by positivity
  linarith

/-- The estimate is capped at 85. -/
theorem progressEstimate_le (mw : Nat) (t : ℚ) : progressEstimate mw t ≤ 85 :=
  min_le_right _ _

/-- Progress values of the writes made by the worker while processing,
split over concatenation. -/
theorem processingProgress_append (A B : List UpdateCall) :
    processingProgress (A ++ B) = processingProgress A ++ processingProgress B :=
  List.filterMap_append A B _

/-- With a monotone clock, the progress values written by the polling loop
form a non-decreasing chain from any lower starting value. -/
theorem pollLoop_chain (env : Env) (mw : Nat) (hmw : 0 < mw)
    (hmono : ∀ i j : Nat, i ≤ j → env.elapsedAt i ≤ env.elapsedAt j) :
    ∀ fuel k c, c ≤ progressEstimate mw (env.elapsedAt k) →
      List.Chain' (· ≤ ·) (c :: processingProgress (pollLoop env mw fuel k).trace) := by
  intro fuel
  induction fuel with
  | zero => intro k c _; simp [pollLoop, processingProgress]
  | succ fuel ih =>
    intro k c hc
    cases hpk : env.poll k with
    | error e => simp [pollLoop, hpk, processingProgress]
    | ok b =>
      cases b with
      | true => simp [pollLoop, hpk, processingProgress]
      | false =>
        by_cases ht : (mw : ℚ) < env.elapsedAt k
        · simp +decide [pollLoop, hpk, ht, processingProgress, timeoutUpd]
        · have hstep : processingProgress (pollLoop env mw (fuel + 1) k).trace
              = progressEstimate mw (env.elapsedAt k)
                :: processingProgress (pollLoop env mw fuel (k + 1)).trace := by
            simp [pollLoop, hpk, ht, processingProgress, pollingUpd]
          rw [hstep, List.chain'_cons]
          exact ⟨hc, ih (k + 1) (progressEstimate mw (env.elapsedAt k))
            (progressEstimate_mono mw hmw _ _ (hmono k (k + 1) (Nat.le_succ k)))⟩

/-- With a non-negative clock every progress value written by the polling
loop lies between 25 and 85. -/
theorem pollLoop_bounds (env : Env) (mw : Nat)
    (hpos : ∀ i : Nat, 0 ≤ env.elapsedAt i) :
    ∀ fuel k, ∀ p ∈ processingProgress (pollLoop env mw fuel k).trace,
      25 ≤ p ∧ p ≤ 85 := by
  intro fuel
  induction fuel with
  | zero => intro k p hp; simp [pollLoop, processingProgress] at hp
  | succ fuel ih =>
    intro k p hp
    cases hpk : env.poll k with
    | error e => simp [pollLoop, hpk, processingProgress] at hp
    | ok b =>
      cases b with
      | true => simp [pollLoop, hpk, processingProgress] at hp
      | false =>
        by_cases ht : (mw : ℚ) < env.elapsedAt k
        · simp +decide [pollLoop, hpk, ht, processingProgress, timeoutUpd] at hp
        · have hp' : p = progressEstimate mw (env.elapsedAt k)
              ∨ p ∈ processingProgress (pollLoop env mw fuel (k + 1)).trace := by
            simpa [pollLoop, hpk, ht, processingProgress, pollingUpd] using hp
          rcases hp' with rfl | hp'
          · exact ⟨progressEstimate_ge mw _ (hpos k), progressEstimate_le mw _⟩
          · exact ih (k + 1) p hp'

/-- Gluing lemma: prepending the fixed 10, 20, 25 writes and appending the
fixed 85 (and 90) writes to a bounded non-decreasing polling chain keeps
the whole progress sequence a non-decreasing chain below 100. -/
theorem chain_and_bound_glue (l tail : List ℚ)
    (hchain : List.Chain' (· ≤ ·) ((25 : ℚ) :: l))
    (hbound : ∀ p ∈ l, 25 ≤ p ∧ p ≤ 85)
    (htail : tail = [] ∨ tail = [85] ∨ tail = [(85 : ℚ), 90]) :
    List.Chain' (· ≤ ·) ((10 : ℚ) :: 20 :: 25 :: (l ++ tail)) ∧
    ∀ p ∈ (10 : ℚ) :: 20 :: 25 :: (l ++ tail), p < 100 := by
  constructor
  · rw [List.chain'_cons]
    refine ⟨by norm_num, ?_⟩
    rw [List.chain'_cons]
    refine ⟨by norm_num, ?_⟩
    rw [show (25 : ℚ) :: (l ++ tail) = ((25 : ℚ) :: l) ++ tail from rfl,
      List.chain'_append]
    refine ⟨hchain, ?_, ?_⟩
    · rcases htail with rfl | rfl | rfl
      · exact List.chain'_nil
      · exact List.chain'_singleton _
      · rw [List.chain'_cons]
        exact ⟨by norm_num, List.chain'_singleton _⟩
    · intro x hx y hy
      rcases htail with rfl | rfl | rfl
      · simp at hy
      all_goals
        obtain ⟨hne, hxeq⟩ := List.mem_getLast?_eq_getLast hx
      all_goals
        have hy' : y = 85 := by
          have hy2 := hy
          simp at hy2
          exact hy2.symm
      all_goals
        have hmem : x ∈ (25 : ℚ) :: l := by rw [hxeq]; exact List.getLast_mem hne
      all_goals
        rw [hy']
      all_goals
        rcases List.mem_cons.mp hmem with rfl | hmem
      · norm_num
      · exact (hbound x hmem).2
      · norm_num
      · exact (hbound x hmem).2
  · intro p hp
    rcases List.mem_cons.mp hp with rfl | hp
    · norm_num
    rcases List.mem_cons.mp hp with rfl | hp
    · norm_num
    rcases List.mem_cons.mp hp with rfl | hp
    · norm_num
    rcases List.mem_append.mp hp with hp | hp
    · have hb := (hbound p hp).2
      linarith
    · rcases htail with rfl | rfl | rfl
      · simp at hp
      · have hp' : p = 85 := by simpa using hp
        rw [hp']; norm_num
      · rcases List.mem_cons.mp hp with rfl | hp
        · norm_num
        · have hp' : p = 90 := by simpa using hp
          rw [hp']; norm_num

/-- Shape of a run's processing-progress sequence: either the submission
failed after the 10 and 20 writes, or the sequence is 10, 20, 25, the
polling-loop estimates, and one of the post-loop tails. -/
theorem run_progress_shape (env : Env) (fuel : Nat) (r : RunResult)
    (hr : processAudioAsync env fuel = some r) :
    processingProgress r.trace = [10, 20] ∨
    ∃ tail : List ℚ, (tail = [] ∨ tail = [85] ∨ tail = [(85 : ℚ), 90]) ∧
      processingProgress r.trace
        = 10 :: 20 :: 25 ::
          (processingProgress
              (pollLoop env (maxWaitTime env.speed_mode) fuel 0).trace ++ tail) := by
  cases hsub : env.submit with
  | error e =>
    left
    simp only [processAudioAsync, hsub, Option.some.injEq] at hr
    subst hr
    simp [processingProgress, startUpd, callingUpd, procErrorUpd]
  | ok _ =>
    cases hout : (pollLoop env (maxWaitTime env.speed_mode) fuel 0).out with
    | none =>
      simp only [processAudioAsync, hsub, hout] at hr
      exact Option.noConfusion hr
    | some o =>
      cases o with
      | raised e =>
        right
        refine ⟨[], Or.inl rfl, ?_⟩
        simp only [processAudioAsync, hsub, hout, Option.some.injEq] at hr
        subst hr
        simp [processingProgress_append, processingProgress, startUpd,
          callingUpd, runningUpd, procErrorUpd]
      | timedOut =>
        right
        refine ⟨[], Or.inl rfl, ?_⟩
        simp only [processAudioAsync, hsub, hout, Option.some.injEq] at hr
        subst hr
        simp [processingProgress_append, processingProgress, startUpd,
          callingUpd, runningUpd]
      | opDone =>
        cases hresp : env.fetchResp with
        | error e =>
          right
          refine ⟨[85], Or.inr (Or.inl rfl), ?_⟩
          simp only [processAudioAsync, hsub, hout, hresp, Option.some.injEq] at hr
          subst hr
          simp [processingProgress_append, processingProgress, startUpd,
            callingUpd, runningUpd, fetchUpd, procErrorUpd]
        | ok rs =>
          by_cases hb : isBlank (buildTranscript rs) = true
          · right
            refine ⟨[85], Or.inr (Or.inl rfl), ?_⟩
            simp only [processAudioAsync, hsub, hout, hresp, hb, if_true,
              Option.some.injEq] at hr
            subst hr
            simp [processingProgress_append, processingProgress, startUpd,
              callingUpd, runningUpd, fetchUpd, noSpeechUpd]
          · right
            refine ⟨[85, 90], Or.inr (Or.inr rfl), ?_⟩
            have hb' : isBlank (buildTranscript rs) = false := by
              cases hq : isBlank (buildTranscript rs)
              · rfl
              · exact absurd hq hb
            simp only [processAudioAsync, hsub, hout, hresp, hb',
              Bool.false_eq_true, if_false, Option.some.injEq] at hr
            subst hr
            simp +decide [processingProgress_append, processingProgress, startUpd,
              callingUpd, runningUpd, fetchUpd, summarizingUpd, completedUpd]

/-- C3: with a monotone non-negative clock, the progress values a run
writes while the job is in status 'processing' are non-decreasing in write
order and all strictly below 100; the polling-loop estimate itself is a
non-decreasing function of elapsed time over the mode's timeout, capped at
85. -/
theorem progress_monotone (env : Env) (fuel : Nat) (r : RunResult)
    (hmono : ∀ i j : Nat, i ≤ j → env.elapsedAt i ≤ env.elapsedAt j)
    (hpos : ∀ i : Nat, 0 ≤ env.elapsedAt i)
    (hr : processAudioAsync env fuel = some r) :
    List.Chain' (· ≤ ·) (processingProgress r.trace) ∧
    (∀ p ∈ processingProgress r.trace, p < 100) ∧
    (∀ t₁ t₂ : ℚ, t₁ ≤ t₂ →
      progressEstimate (maxWaitTime env.speed_mode) t₁
        ≤ progressEstimate (maxWaitTime env.speed_mode) t₂) ∧
    (∀ t : ℚ, progressEstimate (maxWaitTime env.speed_mode) t ≤ 85) := by
  have hmw := maxWaitTime_pos env.speed_mode
  have hmain : List.Chain' (· ≤ ·) (processingProgress r.trace) ∧
      ∀ p ∈ processingProgress r.trace, p < 100 := by
    rcases run_progress_shape env fuel r hr with h | ⟨tail, htail, h⟩
    · rw [h]
      constructor
      · rw [List.chain'_cons]
        exact ⟨by norm_num, List.chain'_singleton _⟩
      · intro p hp
        rcases List.mem_cons.mp hp with rfl | hp
        · norm_num
        · have hp' : p = 20 := by simpa using hp
          rw [hp']; norm_num
    · rw [h]
      exact chain_and_bound_glue _ tail
        (pollLoop_chain env _ hmw hmono fuel 0 25
          (progressEstimate_ge _ _ (hpos 0)))
        (fun p hp => pollLoop_bounds env _ hpos fuel 0 p hp)
        htail
  exact ⟨hmain.1, hmain.2,
    fun t₁ t₂ h => progressEstimate_mono _ hmw t₁ t₂ h,
    fun t => progressEstimate_le _ t⟩

/-- Witness for C3 on a run with a constant zero clock whose operation is
done at the first poll. -/
theorem progress_monotone_w :
    (∀ i j : Nat, i ≤ j → envQuick.elapsedAt i ≤ envQuick.elapsedAt j) ∧
    (∀ i : Nat, 0 ≤ envQuick.elapsedAt i) ∧
    ∃ r : RunResult, processAudioAsync envQuick 1 = some r ∧
      (List.Chain' (· ≤ ·) (processingProgress r.trace) ∧
        (∀ p ∈ processingProgress r.trace, p < 100) ∧
        (∀ t₁ t₂ : ℚ, t₁ ≤ t₂ →
          progressEstimate (maxWaitTime envQuick.speed_mode) t₁
            ≤ progressEstimate (maxWaitTime envQuick.speed_mode) t₂) ∧
        (∀ t : ℚ, progressEstimate (maxWaitTime envQuick.speed_mode) t ≤ 85)) :=
  ⟨fun _ _ _ => le_refl _, fun _ => le_refl _,
    ⟨_, rfl, progress_monotone envQuick 1 _ (fun _ _ _ => le_refl _)
      (fun _ => le_refl _) rfl⟩⟩

/-- C4: for chunk results whose indices are exactly 0..n-1 in any
completion order, with each index's outcome given by a fixed assignment,
the assembled transcript is the concatenation of the per-index rendered
texts (failure marker at failed indices) in index order — independent of
completion order. -/
theorem assemble_by_index (n : Nat) (cs : List ChunkResult)
    (f : Nat → Option (List Char))
    (hperm : (cs.map ChunkResult.index).Perm (List.range n))
    (hout : ∀ c ∈ cs, c.outcome = f c.index) :
    assembleTranscript cs
      = ((List.range n).map (fun i => renderChunk ⟨i, f i⟩)).flatten := by
  have hcs : (cs.map ChunkResult.index).map (fun i => ChunkResult.mk i (f i)) = cs := by
    rw [List.map_map]
    have hco : ∀ c ∈ cs,
        ((fun i => ChunkResult.mk i (f i)) ∘ ChunkResult.index) c = id c := by
      intro c hc
      cases c with
      | mk i o =>
        have ho := hout ⟨i, o⟩ hc
        simp only [Function.comp, id]
        rw [show (ChunkResult.mk i o).outcome = o from rfl,
          show (ChunkResult.mk i o).index = i from rfl] at ho
        rw [ho]
    rw [List.map_congr_left hco, List.map_id]
  have hpermCs : cs.Perm ((List.range n).map (fun i => ChunkResult.mk i (f i))) := by
    have h2 := hperm.map (fun i => ChunkResult.mk i (f i))
    rw [hcs] at h2
    exact h2
  have hsorted1 : List.Sorted chunkLE (List.insertionSort chunkLE cs) :=
    List.sorted_insertionSort chunkLE cs
  have hperm1 : (List.insertionSort chunkLE cs).Perm cs :=
    List.perm_insertionSort chunkLE cs
  have hpermIdx : ((List.insertionSort chunkLE cs).map ChunkResult.index).Perm
      (List.range n) := (hperm1.map ChunkResult.index).trans hperm
  have hnodup : ((List.insertionSort chunkLE cs).map ChunkResult.index).Nodup :=
    hpermIdx.nodup_iff.mpr (List.nodup_range n)
  have hpairNe : (List.insertionSort chunkLE cs).Pairwise
      (fun a b => a.index ≠ b.index) := List.pairwise_map.mp hnodup
  have hsortedLT : (List.insertionSort chunkLE cs).Pairwise chunkLT := by
    have hand := List.Pairwise.and hsorted1 hpairNe
    exact hand.imp (fun h => Nat.lt_of_le_of_ne h.1 h.2)
  have hsorted2 : ((List.range n).map (fun i => ChunkResult.mk i (f i))).Pairwise
      chunkLT := by
    refine List.pairwise_map.mpr ?_
    exact (List.pairwise_lt_range n).imp (fun h => h)
  have heq : List.insertionSort chunkLE cs
      = (List.range n).map (fun i => ChunkResult.mk i (f i)) :=
    List.eq_of_perm_of_sorted (hperm1.trans hpermCs) hsortedLT hsorted2
  rw [assembleTranscript, heq, List.map_map]
  rfl

/-- Witness for C4: three chunks with indices 0, 1, 2 completing in order
2, 0, 1 reassemble to the index-order concatenation of their texts. -/
theorem assemble_by_index_w :
    (outOfOrderChunks.map ChunkResult.index).Perm (List.range 3) ∧
    (∀ c ∈ outOfOrderChunks, c.outcome = chunkTextAt c.index) ∧
    assembleTranscript outOfOrderChunks
      = ((List.range 3).map (fun i => renderChunk ⟨i, chunkTextAt i⟩)).flatten ∧
    assembleTranscript outOfOrderChunks = chunkTextA ++ chunkTextB ++ chunkTextC :=
  ⟨by decide, by decide,
    assemble_by_index 3 outOfOrderChunks chunkTextAt (by decide) (by decide),
    by decide⟩
